import Mathlib

set_option maxRecDepth 100000

/-!
Verification development for the `jsl-go` interpreter core: a shallow
embedding of the parser (`parse` package, `parser.go`), the generic
finite-state-machine engine it drives (modelled from the design document,
since the `dfa` package sources are not part of this tree), and the
tree-walking evaluator (`runtime` package, `evaluator.go`,
`functions_arithmetic.go`).

Conventions of the embedding:
  * Go machine floats (`float64`) are modelled by `NumVal`: exact rationals
    for finite values plus infinity/NaN tags; rounding is not modelled
    because no verified property depends on rounded magnitudes.
  * Fallible Go functions returning `error` are modelled with `Option`/sum
    result types; a Go runtime panic (out-of-range index, method call on a
    nil interface) is modelled as a distinct `panicked`/`none` outcome,
    never as an ordinary returned error.
  * Go slices used as stacks are modelled as Lean lists held top-first
    (the head of the list is the last element of the Go slice).
-/

/-! ## Lexemes (`lex` package surface used by the parser) -/

/-- The lexeme kinds recognised by the parser
(`lex.LIdentifier`, `lex.LParenOpen`, ...). -/
inductive LexemeType where
  | identifier
  | parenOpen
  | parenClose
  | quoted
  | semiColon
  | number
  | boolTrue
  | boolFalse
  | whitespace
deriving DecidableEq, Repr

/-- `lex.Lexeme`: a classified token with text and source position. -/
structure Lexeme where
  type : LexemeType
  value : String
  start : Nat
deriving DecidableEq, Repr

/-! ## Model of `strconv.ParseFloat(s, 64)`

The parser's number hook calls the Go standard library's float parser,
which is outside this repository.  `parseFloat64` below is modelled from
the spec ("parse the lexeme text as a 64-bit float; on failure, fail with
an invalid number condition") together with the documented Go syntax for
`strconv.ParseFloat`: optional sign; case-insensitive `inf`/`infinity`
(signed) or `nan` (unsigned); decimal mantissa with at most one dot and at
least one digit, optional `e`-exponent; hexadecimal mantissa after `0x`
with a mandatory `p`-exponent; Go's underscore-placement rule.  Finite
values are kept as exact rationals (rounding to 64-bit precision is not
modelled); a value at or beyond the IEEE-754 double overflow threshold
yields `none`, matching the parser's treatment of `ParseFloat` range
errors (it only accepts the token when `err == nil`). -/

/-- Exact rational value as an unreduced fraction (denominator intended
positive).  Kept unnormalised — no gcd — so that every arithmetic
operation evaluates by plain kernel reduction. -/
structure Q64 where
  num : Int
  den : Nat
deriving DecidableEq, Repr

/-- Product of two unreduced fractions. -/
def Q64.mul (a b : Q64) : Q64 := ⟨a.num * b.num, a.den * b.den⟩

/-- Sum of two unreduced fractions. -/
def Q64.add (a b : Q64) : Q64 :=
  ⟨a.num * (b.den : Int) + b.num * (a.den : Int), a.den * b.den⟩

/-- Negation of an unreduced fraction. -/
def Q64.neg (a : Q64) : Q64 := ⟨-a.num, a.den⟩

/-- Difference of two unreduced fractions. -/
def Q64.sub (a b : Q64) : Q64 := a.add b.neg

/-- Value-level order on unreduced fractions (valid for positive
denominators, which all constructions below maintain). -/
def Q64.le (a b : Q64) : Bool := a.num * (b.den : Int) ≤ b.num * (a.den : Int)

/-- Strict value-level order on unreduced fractions. -/
def Q64.lt (a b : Q64) : Bool := a.num * (b.den : Int) < b.num * (a.den : Int)

/-- Value-level equality on unreduced fractions (two representations of
the same rational compare equal). -/
def Q64.eqv (a b : Q64) : Bool := a.num * (b.den : Int) = b.num * (a.den : Int)

/-- Whether the fraction represents zero. -/
def Q64.isZero (a : Q64) : Bool := a.num = 0

/-- Division of unreduced fractions (caller must rule out a zero
divisor). -/
def Q64.div (a b : Q64) : Q64 :=
  if b.num < 0 then ⟨-(a.num * (b.den : Int)), a.den * b.num.natAbs⟩
  else ⟨a.num * (b.den : Int), a.den * b.num.natAbs⟩

/-- `b ^ e` for a natural base and integer exponent, as a fraction. -/
def qpowB (b : Nat) (e : Int) : Q64 :=
  if 0 ≤ e then ⟨Int.ofNat (b ^ e.toNat), 1⟩ else ⟨1, b ^ (-e).toNat⟩

/-- Runtime model of a Go `float64`: exact finite rational, or an
infinity with sign, or NaN. -/
inductive NumVal where
  | finite (q : Q64)
  | inf (neg : Bool)
  | nan
deriving DecidableEq, Repr

/-- Digit value of a character, hexadecimal when `base16` is set. -/
def digitValue (base16 : Bool) (c : Char) : Option Nat :=
  if c.isDigit then some (c.toNat - '0'.toNat)
  else if base16 && 'a' ≤ c.toLower && c.toLower ≤ 'f' then
    some (c.toLower.toNat - 'a'.toNat + 10)
  else none

/-- Loop of Go `strconv`'s `underscoreOK`: `saw` tracks the class of the
previous character (`'^'` start, `'0'` digit or base prefix, `'_'`
underscore, `'!'` anything else). -/
def underscoreOKLoop (hex : Bool) : Char → List Char → Bool
  | saw, [] => saw ≠ '_'
  | saw, c :: cs =>
    if c.isDigit || (hex && 'a' ≤ c.toLower && c.toLower ≤ 'f') then
      underscoreOKLoop hex '0' cs
    else if c = '_' then
      saw = '0' && underscoreOKLoop hex '_' cs
    else
      saw ≠ '_' && underscoreOKLoop hex '!' cs

/-- Go `strconv`'s `underscoreOK`: underscores may appear only between
digits, or between a base prefix and a digit. -/
def underscoreOK (cs : List Char) : Bool :=
  let cs1 := match cs with
    | c :: r => if c = '-' ∨ c = '+' then r else cs
    | [] => cs
  match cs1 with
  | '0' :: x :: r =>
    if x.toLower = 'x' then underscoreOKLoop true '0' r
    else underscoreOKLoop false '^' cs1
  | _ => underscoreOKLoop false '^' cs1

/-- State of the mantissa scan: accumulated digits as an integer,
number of digits seen after the dot, and the scan flags of Go's
`readFloat` loop. -/
structure MantissaState where
  mant : Nat := 0
  ndFrac : Nat := 0
  sawDot : Bool := false
  sawDigits : Bool := false
  underscores : Bool := false
deriving Repr

/-- Mantissa scan of Go's `readFloat`: consumes digits, at most one dot,
and underscores; stops at the first other character (or a second dot). -/
def scanMantissa (base16 : Bool) : MantissaState → List Char →
    MantissaState × List Char
  | st, [] => (st, [])
  | st, c :: cs =>
    if c = '_' then scanMantissa base16 { st with underscores := true } cs
    else if c = '.' then
      if st.sawDot then (st, c :: cs)
      else scanMantissa base16 { st with sawDot := true } cs
    else
      match digitValue base16 c with
      | some d =>
        scanMantissa base16
          { st with
            sawDigits := true
            mant := st.mant * (if base16 then 16 else 10) + d
            ndFrac := if st.sawDot then st.ndFrac + 1 else st.ndFrac } cs
      | none => (st, c :: cs)

/-- Digits-and-underscores tail of an exponent. -/
def scanExpDigits : Int → Bool → List Char → Int × Bool × List Char
  | acc, u, [] => (acc, u, [])
  | acc, u, c :: cs =>
    if c.isDigit then scanExpDigits (acc * 10 + (c.toNat - '0'.toNat)) u cs
    else if c = '_' then scanExpDigits acc true cs
    else (acc, u, c :: cs)

/-- Result of scanning an optional exponent part. -/
inductive ExpScan where
  | noExp
  | malformed
  | found (e : Int) (underscores : Bool) (rest : List Char)

/-- Exponent scan of Go's `readFloat`: `expChar` is `'e'` for decimal and
`'p'` for hexadecimal mantissas; after the marker and an optional sign at
least one digit is required. -/
def scanExponent (expChar : Char) : List Char → ExpScan
  | [] => .noExp
  | c :: cs =>
    if c.toLower = expChar then
      let signed : Bool × List Char :=
        match cs with
        | s :: r => if s = '+' then (false, r)
                    else if s = '-' then (true, r)
                    else (false, cs)
        | [] => (false, cs)
      match signed.2 with
      | d :: _ =>
        if d.isDigit then
          let (e, u, rest) := scanExpDigits 0 false signed.2
          .found (if signed.1 then -e else e) u rest
        else .malformed
      | [] => .malformed
    else .noExp

/-- Overflow threshold of IEEE-754 binary64: decimal conversions whose
exact value reaches `2^1024 - 2^970` round to infinity, which
`strconv.ParseFloat` reports as a range error. -/
def float64OverflowBound : Q64 := ⟨Int.ofNat (2 ^ 1024 - 2 ^ 970), 1⟩

/-- The `inf`/`infinity`/`nan` special forms of `strconv`'s `special`:
an optional sign followed by case-insensitive `inf` or `infinity`, or an
unsigned case-insensitive `nan`; the whole string must be consumed. -/
def specialVal (cs : List Char) : Option NumVal :=
  let signed : Bool × List Char :=
    match cs with
    | '+' :: r => (false, r)
    | '-' :: r => (true, r)
    | _ => (false, cs)
  let low := signed.2.map Char.toLower
  if low = "inf".toList ∨ low = "infinity".toList then some (.inf signed.1)
  else if cs.map Char.toLower = "nan".toList then some .nan
  else none

/-- Model of `strconv.ParseFloat(s, 64)` restricted to what the parser
observes: `some v` when Go returns a nil error, `none` when Go reports a
syntax or range error.  See the section comment for the modelled grammar. -/
def parseFloat64 (s : String) : Option NumVal :=
  let cs := s.toList
  match specialVal cs with
  | some v => some v
  | none =>
    let signed : Bool × List Char :=
      match cs with
      | '+' :: r => (false, r)
      | '-' :: r => (true, r)
      | _ => (false, cs)
    let neg := signed.1
    let body := signed.2
    let hexSplit : Bool × List Char :=
      match body with
      | '0' :: x :: r => if x.toLower = 'x' then (true, r) else (false, body)
      | _ => (false, body)
    let base16 := hexSplit.1
    let (st, rest) := scanMantissa base16 {} hexSplit.2
    if !st.sawDigits then none
    else
      let expScan := scanExponent (if base16 then 'p' else 'e') rest
      let contOpt : Option (Int × Bool × List Char) :=
        match expScan with
        | .noExp => if base16 then none else some (0, false, rest)
        | .malformed => none
        | .found e u r => some (e, u, r)
      match contOpt with
      | none => none
      | some (e, expU, rest') =>
        if rest' ≠ [] then none
        else if (st.underscores || expU) && !underscoreOK cs then none
        else
          let mag : Q64 :=
            if base16 then Q64.mul ⟨Int.ofNat st.mant, 1⟩ (qpowB 2 (e - 4 * st.ndFrac))
            else Q64.mul ⟨Int.ofNat st.mant, 1⟩ (qpowB 10 (e - st.ndFrac))
          if float64OverflowBound.le mag then none
          else some (.finite (if neg then mag.neg else mag))

/-! ## AST node model (`parse` package)

The node variants of the data model: `Root` holds the ordered statement
sequence; `Statement`, `FunctionCall`, `Operator`, `Let`, `Assignment`,
`Group` and `If` own ordered children (`If` keeps its condition apart
from its body children, mirroring `If.Condition()` versus
`If.ParentNode.Children()`); literals and `Identifier` are leaves.
The node constructor files are not under `src/`, so the variant shapes
are modelled from the spec's data model together with the shapes
exercised by `parser.go`, `parser_test.go` and `evaluator.go`. -/
inductive Node where
  | root (statements : List Node)
  | statement (children : List Node)
  | functionCall (identifier : String) (children : List Node)
  | stringLiteral (value : String)
  | numberLiteral (value : NumVal)
  | booleanLiteral (value : Bool)
  | operatorNode (symbol : String) (children : List Node)
  | letNode (typeIdentifier : String) (identifier : String) (children : List Node)
  | identifierNode (identifier : String)
  | assignment (identifier : String) (children : List Node)
  | group (children : List Node)
  | ifNode (condition : Node) (children : List Node)

/-- The ordered children of a node (`ContainsChildren.Children()`; for
`Root` the statement sequence, for `If` the body children only). -/
def Node.childList : Node → List Node
  | .root s => s
  | .statement cs => cs
  | .functionCall _ cs => cs
  | .stringLiteral _ => []
  | .numberLiteral _ => []
  | .booleanLiteral _ => []
  | .operatorNode _ cs => cs
  | .letNode _ _ cs => cs
  | .identifierNode _ => []
  | .assignment _ cs => cs
  | .group cs => cs
  | .ifNode _ cs => cs

/-- Replace a node's child list (used by the path-based stack model). -/
def Node.withChildList : Node → List Node → Node
  | .root _, cs => .root cs
  | .statement _, cs => .statement cs
  | .functionCall id _, cs => .functionCall id cs
  | .stringLiteral v, _ => .stringLiteral v
  | .numberLiteral v, _ => .numberLiteral v
  | .booleanLiteral v, _ => .booleanLiteral v
  | .operatorNode sym _, cs => .operatorNode sym cs
  | .letNode t id _, cs => .letNode t id cs
  | .identifierNode id, _ => .identifierNode id
  | .assignment id _, cs => .assignment id cs
  | .group _, cs => .group cs
  | .ifNode c _, cs => .ifNode c cs

/-- Whether the node implements `ContainsChildren`.  `RootNode` is not a
`ContainsChildren` (the evaluator and the push algorithm treat it by a
separate type test); literals and `Identifier` are leaves. -/
def Node.isContainer : Node → Bool
  | .statement _ => true
  | .functionCall _ _ => true
  | .operatorNode _ _ => true
  | .letNode _ _ _ => true
  | .assignment _ _ => true
  | .group _ => true
  | .ifNode _ _ => true
  | _ => false

/-- Node lookup along a child-index path (`[]` is the node itself).
Paths play the role of the Go node pointers held on the parser's stack:
a pointer into the tree is modelled as the path from the root to the
aliased node. -/
def Node.getAt : Node → List Nat → Option Node
  | n, [] => some n
  | n, i :: p =>
    match n.childList.get? i with
    | some c => c.getAt p
    | none => none

/-- In-place update of the node at a path (`none` when the path dangles,
which cannot happen for the paths the parser maintains). -/
def Node.modifyAt : Node → List Nat → (Node → Node) → Option Node
  | n, [], f => some (f n)
  | n, i :: p, f =>
    match n.childList.get? i with
    | some c =>
      match c.modifyAt p f with
      | some c' => some (n.withChildList (n.childList.set i c'))
      | none => none
    | none => none

/-! ## The parser (`parser.go`) and its automaton

The grammar-specific automaton instance is declared in `NewParser`:
states are the token kinds plus the virtual `start` state, an edge
`Path(from, to)` is labelled by its target symbol, the entry hooks build
AST nodes, and `semicolon` is the only accepting state.  The generic
machine semantics (`dfa.Machine.Transition` / `Finish`) are modelled from
the spec, the `dfa` package sources being outside this tree: `Transition`
fails with an unexpected-input condition when no edge matches, otherwise
moves and runs the entered state's hook, a hook failure being surfaced
with the state left at the pre-transition state; `Finish` fails unless
the current state is accepting. -/

/-- Automaton states: the virtual `start` state, or a token-kind state. -/
inductive PState where
  | start
  | tok (k : LexemeType)
deriving DecidableEq, Repr

/-- The literal token kinds (`literals` in `NewParser`). -/
def isLiteral : LexemeType → Bool
  | .number => true
  | .quoted => true
  | .boolTrue => true
  | .boolFalse => true
  | _ => false

/-- The transition table declared in `NewParser`:
`start → literals ∪ {identifier}`, `identifier → parenOpen → quoted →
parenClose → semicolon`, `literals → semicolon`, `semicolon → literals`. -/
def parserEdges : PState → LexemeType → Bool
  | .start, k => isLiteral k || k == .identifier
  | .tok .identifier, .parenOpen => true
  | .tok .parenOpen, .quoted => true
  | .tok .quoted, .parenClose => true
  | .tok .parenClose, .semiColon => true
  | .tok .semiColon, k => isLiteral k
  | .tok k, .semiColon => isLiteral k
  | _, _ => false

/-- Parse-time error conditions (`UnexpectedTokenError` is never built by
`parser.go` itself; the automaton's unexpected-input condition carries the
rejected input symbol). -/
inductive ParseErr where
  | unexpectedInput (k : LexemeType)
  | invalidNumber (l : Lexeme)
  | unterminatedStatement
deriving DecidableEq, Repr

/-- The parser's mutable state: the automaton state, the remembered
current lexeme, the root under construction and the node stack.  Stack
frames are paths into the root (a Go node pointer is modelled as the path
to the node it aliases), held top-first. -/
structure ParserCfg where
  dfaState : PState
  current : Lexeme
  root : Node
  nodeStack : List (List Nat)

/-- `parser.push(node)`: if the context (top of stack) is the `Root`,
first synthesize a `Statement`, append it to the root and push it; then
append `node` to the context if the context accepts children; finally
push `node`'s own frame if it accepts children.  `none` models the Go
panic of `getContext` indexing an empty stack. -/
def pushNode (p : ParserCfg) (node : Node) : Option ParserCfg :=
  match p.nodeStack.head? with
  | none => none
  | some topPath =>
    let ins : Node × List (List Nat) :=
      match p.root.getAt topPath with
      | some (.root stmts) =>
        (.root (stmts ++ [.statement []]), [stmts.length] :: p.nodeStack)
      | _ => (p.root, p.nodeStack)
    match ins.2.head? with
    | none => none
    | some ctxPath =>
      match ins.1.getAt ctxPath with
      | none => none
      | some ctx =>
        let root2? : Option Node :=
          if ctx.isContainer then
            ins.1.modifyAt ctxPath (fun n => n.withChildList (n.childList ++ [node]))
          else some ins.1
        match root2? with
        | none => none
        | some root2 =>
          let stack2 :=
            if node.isContainer then (ctxPath ++ [ctx.childList.length]) :: ins.2
            else ins.2
          some { p with root := root2, nodeStack := stack2 }

/-- `parser.closeNode`: pop exactly one frame; popping an empty stack is
the Go out-of-range panic (`none`). -/
def closeNode (p : ParserCfg) : Option ParserCfg :=
  match p.nodeStack with
  | [] => none
  | _ :: rest => some { p with nodeStack := rest }

/-- Result of a hook or of feeding one lexeme. -/
inductive StepOut where
  | ok (c : ParserCfg)
  | err (e : ParseErr) (c : ParserCfg)
  | panicked

/-- The entry hooks registered in `NewParser`, dispatched on the entered
state: `createIdentifier`, `createStringLiteral`, `createNumberLiteral`,
`createBooleanLiteral` and `closeNode` on both close kinds; `parenOpen`
has no hook. -/
def runHook (p : ParserCfg) : LexemeType → StepOut
  | .identifier =>
    match pushNode p (.functionCall p.current.value []) with
    | some c => .ok c
    | none => .panicked
  | .quoted =>
    match pushNode p (.stringLiteral p.current.value) with
    | some c => .ok c
    | none => .panicked
  | .number =>
    match parseFloat64 p.current.value with
    | some v =>
      match pushNode p (.numberLiteral v) with
      | some c => .ok c
      | none => .panicked
    | none => .err (.invalidNumber p.current) p
  | .boolTrue =>
    match pushNode p (.booleanLiteral (p.current.type == .boolTrue)) with
    | some c => .ok c
    | none => .panicked
  | .boolFalse =>
    match pushNode p (.booleanLiteral (p.current.type == .boolTrue)) with
    | some c => .ok c
    | none => .panicked
  | .parenClose =>
    match closeNode p with
    | some c => .ok c
    | none => .panicked
  | .semiColon =>
    match closeNode p with
    | some c => .ok c
    | none => .panicked
  | _ => .ok p

/-- `dfa.Machine.Transition` (modelled from the spec) for the parser's
machine: no matching edge fails with unexpected input; otherwise move to
the target state (the input symbol) and run its entry hook, a hook error
leaving the pre-transition state in place. -/
def transition (p : ParserCfg) (k : LexemeType) : StepOut :=
  if parserEdges p.dfaState k then
    match runHook { p with dfaState := .tok k } k with
    | .ok c => .ok c
    | .err e _ => .err e p
    | .panicked => .panicked
  else .err (.unexpectedInput k) p

/-- One iteration of the `Parse` loop: whitespace lexemes are skipped
without touching the automaton; otherwise the lexeme is remembered as
current and its kind is fed to the automaton. -/
def stepLexeme (p : ParserCfg) (l : Lexeme) : StepOut :=
  if l.type = .whitespace then .ok p
  else transition { p with current := l } l.type

/-- Feed a list of lexemes, stopping at the first failure. -/
def runLexemes (p : ParserCfg) : List Lexeme → StepOut
  | [] => .ok p
  | l :: rest =>
    match stepLexeme p l with
    | .ok c => runLexemes c rest
    | out => out

/-- Outcome of `Parse`: Go returns the (possibly partial) root in every
non-panicking case. -/
inductive ParseOut where
  | ok (root : Node)
  | err (e : ParseErr) (root : Node)
  | panic

/-- The parser's initial state: a fresh empty root whose frame is the
whole stack; the placeholder current lexeme is never read before the
first non-whitespace lexeme is remembered. -/
def initialCfg : ParserCfg :=
  { dfaState := .start
    current := { type := .whitespace, value := "", start := 0 }
    root := .root []
    nodeStack := [[]] }

/-- `parser.Parse`: drive the automaton over the lexeme stream (the
external lexer is modelled as the list of lexemes it would yield before
signalling exhaustion), then `Finish()`: ending in a non-accepting state
is the distinct unterminated-statement condition. -/
def Parse (ls : List Lexeme) : ParseOut :=
  match runLexemes initialCfg ls with
  | .ok c =>
    if c.dfaState = .tok .semiColon then .ok c.root
    else .err .unterminatedStatement c.root
  | .err e c => .err e c.root
  | .panicked => .panic

/-! ## Runtime values and the symbol table (`runtime` package)

The `Table` sources are not under `src/`; its shape and operations are
modelled from the spec (registration of types, functions and operators,
exact-signature operator resolution, and the variable binding
operations), while the registrations themselves and everything in
`evaluator.go` / `functions_arithmetic.go` are embedded from source. -/

/-- The native invokables wired up in `NewEvaluator` (the arithmetic two
are embedded from `functions_arithmetic.go`; the rest are modelled from
the spec's native operation set). -/
inductive Invokable where
  | println
  | addNumbers
  | subtractNumbers
  | multiplyNumbers
  | divideNumbers
  | stringConcatenation
  | logicAnd
  | logicOr
  | equality
  | lessThan
  | greaterThan
deriving DecidableEq, Repr

/-- The registered type identities. -/
inductive VType where
  | string
  | boolean
  | number
  | invokable
deriving DecidableEq, Repr

/-- Runtime values (`String`, `Number`, `Boolean`, invokables); the Go
`nil` absence value is represented by `Option Value`'s `none` at use
sites. -/
inductive Value where
  | string (value : String)
  | number (value : NumVal)
  | boolean (value : Bool)
  | invokableValue (i : Invokable)
deriving DecidableEq, Repr

/-- `Value.Type()`. -/
def Value.type : Value → VType
  | .string _ => .string
  | .number _ => .number
  | .boolean _ => .boolean
  | .invokableValue _ => .invokable

/-- Errors produced by the modelled `Table` operations. -/
inductive TableErr where
  | unknownIdentifier (name : String)
  | unknownType (name : String)
  | unknownOperator (symbol : String) (operands : List VType)
  | invalidType (name : String)
  | alreadyDefined (name : String)
deriving DecidableEq, Repr

/-- Modelled from the spec: the symbol/type table — registered types,
functions, operators keyed by symbol plus exact ordered operand-type
signature, and variable bindings (declared type and current value, the
value possibly not yet assigned). -/
structure Table where
  types : List (String × VType)
  functions : List (String × Invokable)
  operators : List ((String × List VType) × Invokable)
  -- the variable bindings (field named `vars`: `variables` is a Lean keyword)
  vars : List (String × VType × Option Value)
deriving DecidableEq, Repr

/-- Modelled from the spec: `NewTable()` starts empty. -/
def NewTable : Table := ⟨[], [], [], []⟩

/-- Modelled from the spec: `AddType(name, type)`. -/
def Table.addType (t : Table) (name : String) (ty : VType) : Table :=
  { t with types := t.types ++ [(name, ty)] }

/-- Modelled from the spec: `AddFunction(name, invokable)`. -/
def Table.addFunction (t : Table) (name : String) (i : Invokable) : Table :=
  { t with functions := t.functions ++ [(name, i)] }

/-- Modelled from the spec: `AddOperator(symbol, operandTypes, invokable)`. -/
def Table.addOperator (t : Table) (symbol : String) (ops : List VType)
    (i : Invokable) : Table :=
  { t with operators := t.operators ++ [((symbol, ops), i)] }

/-- Modelled from the spec: `Type(name)` fails with unknown type when the
name was never registered. -/
def Table.typeNamed (t : Table) (name : String) : Except TableErr VType :=
  match t.types.find? (fun p => p.1 == name) with
  | some p => .ok p.2
  | none => .error (.unknownType name)

/-- Modelled from the spec: `Invokable(name)` resolves registered
functions only, failing with unknown identifier otherwise. -/
def Table.invokableNamed (t : Table) (name : String) : Except TableErr Invokable :=
  match t.functions.find? (fun p => p.1 == name) with
  | some p => .ok p.2
  | none => .error (.unknownIdentifier name)

/-- Modelled from the spec: `Operator(symbol, operandTypes)` resolves by
exact match of the symbol and the ordered operand-type list, failing with
unknown operator otherwise (no coercion). -/
def Table.operatorNamed (t : Table) (symbol : String) (ops : List VType) :
    Except TableErr Invokable :=
  match t.operators.find? (fun p => p.1.1 == symbol && decide (p.1.2 = ops)) with
  | some p => .ok p.2
  | none => .error (.unknownOperator symbol ops)

/-- Modelled from the spec: `Define(name, type)` creates a fresh unset
binding, failing when the name is already defined. -/
def Table.define (t : Table) (name : String) (ty : VType) : Except TableErr Table :=
  match t.vars.find? (fun p => p.1 == name) with
  | some _ => .error (.alreadyDefined name)
  | none => .ok { t with vars := t.vars ++ [(name, ty, none)] }

/-- Modelled from the spec: `Set(name, value)` fails with unknown
identifier for an undefined name and with invalid type when the value's
type differs from the declared type. -/
def Table.set (t : Table) (name : String) (v : Value) : Except TableErr Table :=
  match t.vars.find? (fun p => p.1 == name) with
  | none => .error (.unknownIdentifier name)
  | some (_, ty, _) =>
    if v.type = ty then
      .ok { t with
            vars := t.vars.map
              (fun p => if p.1 == name then (p.1, ty, some v) else p) }
    else .error (.invalidType name)

/-- Modelled from the spec: `Get(name)` fails with unknown identifier for
an undefined name; a defined but not yet assigned binding yields the
absence value. -/
def Table.get (t : Table) (name : String) : Except TableErr (Option Value) :=
  match t.vars.find? (fun p => p.1 == name) with
  | none => .error (.unknownIdentifier name)
  | some (_, _, v) => .ok v

/-- The evaluation context: the table plus the output stream, modelled as
the list of strings written so far.  The input and error streams of
`NewEvaluator` are not modelled: no modelled native reads them. -/
structure Context where
  table : Table
  output : List String
deriving DecidableEq, Repr

/-! ## Native operations -/

/-- Argument lists as collected by the evaluator: Go appends each child's
returned `Value` interface, which may be nil. -/
abbrev Args := List (Option Value)

/-- Outcome of `Invokable.Invoke`: a returned value (possibly the nil
absence), a returned error, or a Go panic. -/
inductive InvokeRes where
  | ok (v : Option Value)
  | err (msg : String)
  | panicked
deriving DecidableEq, Repr

/-- IEEE-style addition on the float model (rounding not modelled). -/
def NumVal.add : NumVal → NumVal → NumVal
  | .nan, _ => .nan
  | _, .nan => .nan
  | .inf s, .inf t => if s = t then .inf s else .nan
  | .inf s, .finite _ => .inf s
  | .finite _, .inf t => .inf t
  | .finite a, .finite b => .finite (a.add b)

/-- IEEE-style negation on the float model. -/
def NumVal.negv : NumVal → NumVal
  | .finite a => .finite a.neg
  | .inf s => .inf !s
  | .nan => .nan

/-- IEEE-style subtraction on the float model. -/
def NumVal.sub (a b : NumVal) : NumVal := a.add b.negv

/-- Sign predicate used by multiplication and division. -/
def NumVal.isNeg : NumVal → Bool
  | .finite a => a.num < 0
  | .inf s => s
  | .nan => false

/-- IEEE-style multiplication on the float model (rounding and signed
zeros not modelled). -/
def NumVal.mul : NumVal → NumVal → NumVal
  | .nan, _ => .nan
  | _, .nan => .nan
  | .inf s, .inf t => .inf (s != t)
  | .inf s, .finite b => if b.isZero then .nan else .inf (s != (b.num < 0 : Bool))
  | .finite a, .inf t => if a.isZero then .nan else .inf (t != (a.num < 0 : Bool))
  | .finite a, .finite b => .finite (a.mul b)

/-- IEEE-style division on the float model (rounding and signed zeros
not modelled). -/
def NumVal.div : NumVal → NumVal → NumVal
  | .nan, _ => .nan
  | _, .nan => .nan
  | .inf _, .inf _ => .nan
  | .inf s, .finite b => .inf (s != (b.num < 0 : Bool))
  | .finite _, .inf _ => .finite ⟨0, 1⟩
  | .finite a, .finite b =>
    if b.isZero then (if a.isZero then .nan else .inf (a.num < 0))
    else .finite (a.div b)

/-- IEEE-style equality (NaN compares unequal to everything). -/
def NumVal.eqb : NumVal → NumVal → Bool
  | .nan, _ => false
  | _, .nan => false
  | .inf s, .inf t => s = t
  | .inf _, .finite _ => false
  | .finite _, .inf _ => false
  | .finite a, .finite b => a.eqv b

/-- IEEE-style strict order (false whenever NaN is involved). -/
def NumVal.ltb : NumVal → NumVal → Bool
  | .nan, _ => false
  | _, .nan => false
  | .inf s, .inf t => s && !t
  | .inf s, .finite _ => s
  | .finite _, .inf t => !t
  | .finite a, .finite b => a.lt b

/-- Textual rendering used by `println` (modelled; no verified property
depends on the exact format). -/
def displayValue : Value → String
  | .string s => s
  | .boolean b => if b then "true" else "false"
  | .number (.finite q) => toString q.num ++ "/" ++ toString q.den
  | .number (.inf neg) => if neg then "-Inf" else "+Inf"
  | .number .nan => "NaN"
  | .invokableValue _ => "<native>"

/-- `AddNumbers.Invoke` (from `functions_arithmetic.go`): asserts the
first argument is a `Number`, then the second, returning the sum; a type
assertion failure returns the operand error; indexing a missing element
is the Go out-of-range panic. -/
def AddNumbersInvoke (args : Args) : InvokeRes :=
  match args.get? 0 with
  | none => .panicked
  | some a0 =>
    match a0 with
    | some (.number one) =>
      match args.get? 1 with
      | none => .panicked
      | some (some (.number two)) => .ok (some (.number (one.add two)))
      | some _ => .err "Invalid operands. Number addition requires two numbers"
    | _ => .err "Invalid operands. Number addition requires two numbers"

/-- `SubtractNumbers.Invoke` (from `functions_arithmetic.go`), same shape
as addition. -/
def SubtractNumbersInvoke (args : Args) : InvokeRes :=
  match args.get? 0 with
  | none => .panicked
  | some a0 =>
    match a0 with
    | some (.number one) =>
      match args.get? 1 with
      | none => .panicked
      | some (some (.number two)) => .ok (some (.number (one.sub two)))
      | some _ => .err "Invalid operands. Subtraction requires two numbers"
    | _ => .err "Invalid operands. Subtraction requires two numbers"

/-- Modelled from the spec: a fixed-arity native over two operands that
asserts the expected value variants and degrades to an operand-type
error otherwise (sources of these natives are not under `src/`). -/
def binaryNative (f : Value → Value → Option Value) (msg : String)
    (args : Args) : InvokeRes :=
  match args with
  | [some a, some b] =>
    match f a b with
    | some v => .ok (some v)
    | none => .err msg
  | _ => .err msg

/-- Modelled from the spec: `Println` writes its single argument's text
to the output stream. -/
def PrintlnInvoke (c : Context) (args : Args) : Context × InvokeRes :=
  match args with
  | [some v] => ({ c with output := c.output ++ [displayValue v] }, .ok none)
  | _ => (c, .err "Invalid operands. println requires one value")

/-- `Invokable.Invoke` dispatch: the context is threaded for output
effects; the arithmetic invokables ignore it. -/
def invoke : Invokable → Context → Args → Context × InvokeRes
  | .println, c, args => PrintlnInvoke c args
  | .addNumbers, c, args => (c, AddNumbersInvoke args)
  | .subtractNumbers, c, args => (c, SubtractNumbersInvoke args)
  | .multiplyNumbers, c, args =>
    (c, binaryNative
      (fun a b => match a, b with
        | .number x, .number y => some (.number (x.mul y))
        | _, _ => none)
      "Invalid operands. Multiplication requires two numbers" args)
  | .divideNumbers, c, args =>
    (c, binaryNative
      (fun a b => match a, b with
        | .number x, .number y => some (.number (x.div y))
        | _, _ => none)
      "Invalid operands. Division requires two numbers" args)
  | .stringConcatenation, c, args =>
    (c, binaryNative
      (fun a b => match a, b with
        | .string x, .string y => some (.string (x ++ y))
        | _, _ => none)
      "Invalid operands. Concatenation requires two strings" args)
  | .logicAnd, c, args =>
    (c, binaryNative
      (fun a b => match a, b with
        | .boolean x, .boolean y => some (.boolean (x && y))
        | _, _ => none)
      "Invalid operands. Logical and requires two booleans" args)
  | .logicOr, c, args =>
    (c, binaryNative
      (fun a b => match a, b with
        | .boolean x, .boolean y => some (.boolean (x || y))
        | _, _ => none)
      "Invalid operands. Logical or requires two booleans" args)
  | .equality, c, args =>
    (c, binaryNative
      (fun a b => match a, b with
        | .number x, .number y => some (.boolean (x.eqb y))
        | _, _ => none)
      "Invalid operands. Equality requires two numbers" args)
  | .lessThan, c, args =>
    (c, binaryNative
      (fun a b => match a, b with
        | .number x, .number y => some (.boolean (x.ltb y))
        | _, _ => none)
      "Invalid operands. Less than requires two numbers" args)
  | .greaterThan, c, args =>
    (c, binaryNative
      (fun a b => match a, b with
        | .number x, .number y => some (.boolean (y.ltb x))
        | _, _ => none)
      "Invalid operands. Greater than requires two numbers" args)

/-- The table wired up by `NewEvaluator` (from `evaluator.go`): the three
types, `println`, and the operator set keyed by exact signatures. -/
def newEvaluatorTable : Table :=
  ((((((((((((((NewTable.addType "string" .string).addType "boolean" .boolean).addType
    "number" .number).addFunction "println" .println).addOperator
    "+" [.number, .number] .addNumbers).addOperator
    "-" [.number, .number] .subtractNumbers).addOperator
    "*" [.number, .number] .multiplyNumbers).addOperator
    "/" [.number, .number] .divideNumbers).addOperator
    "+" [.string, .string] .stringConcatenation).addOperator
    "&&" [.boolean, .boolean] .logicAnd).addOperator
    "||" [.boolean, .boolean] .logicOr).addOperator
    "==" [.number, .number] .equality).addOperator
    "<" [.number, .number] .lessThan).addOperator
    ">" [.number, .number] .greaterThan)

/-- The context `NewEvaluator` constructs. -/
def newContext : Context := ⟨newEvaluatorTable, []⟩

/-! ## The evaluator (`evaluator.go`) -/

/-- Evaluation-time errors.  The wrapped-message constructor models Go
`errors.New` values; the structured constructors mirror the `runtime`
error types, carrying the AST node the evaluator attaches for
diagnostics. -/
inductive EvalErr where
  | unknownIdentifier (name : String) (node : Option Node)
  | unknownType (name : String)
  | unknownOperator (symbol : String) (operands : List VType) (node : Option Node)
  | invalidType (name : String) (node : Option Node)
  | alreadyDefined (name : String)
  | message (msg : String)

/-- Lift a table error to an evaluation error with no node attached. -/
def TableErr.toEvalErr : TableErr → EvalErr
  | .unknownIdentifier n => .unknownIdentifier n none
  | .unknownType n => .unknownType n
  | .unknownOperator s ops => .unknownOperator s ops none
  | .invalidType n => .invalidType n none
  | .alreadyDefined n => .alreadyDefined n

/-- `applyUnknownIdentifierNode`: attach the referencing identifier node
when the error is an unknown identifier; any other error — including none
— yields nil. -/
def applyUnknownIdentifierNode (e : Option TableErr) (idNode : Node) : Option EvalErr :=
  match e with
  | some (.unknownIdentifier n) => some (.unknownIdentifier n (some idNode))
  | _ => none

/-- `evaluator.setValue`: `Table.Set`, attaching the identifier node to
invalid-type errors and routing the rest through
`applyUnknownIdentifierNode`.  `none` models the panic of calling
`Type()` on a nil value. -/
def setValue (c : Context) (identifier : String) (v : Option Value) :
    Option (Context × Option EvalErr) :=
  match v with
  | none => none
  | some v' =>
    match c.table.set identifier v' with
    | .ok t => some ({ c with table := t }, none)
    | .error e =>
      match e with
      | .invalidType n => some (c, some (.invalidType n (some (.identifierNode identifier))))
      | _ => some (c, applyUnknownIdentifierNode (some e) (.identifierNode identifier))

/-- Outcome of the internal `evaluate`: Go's `(error, Value)` pair plus
the threaded context, or a panic. -/
inductive EvalOut where
  | ret (c : Context) (err : Option EvalErr) (val : Option Value)
  | panicked

/-- Outcome of the child-collection loop. -/
inductive ArgsOut where
  | ok (c : Context) (args : Args)
  | err (c : Context) (e : EvalErr)
  | panicked

/-- `evaluator.evaluateFunctionCall`: resolve the callee among the
table's functions; a resolution failure is returned; otherwise the
invokable is invoked and both its error and its value are discarded,
the call returning nil error and nil value. -/
def evaluateFunctionCall (c : Context) (name : String) (args : Args) : EvalOut :=
  match c.table.invokableNamed name with
  | .error e => .ret c (some e.toEvalErr) none
  | .ok inv =>
    match invoke inv c args with
    | (_, .panicked) => .panicked
    | (c', _) => .ret c' none none

/-- Ordered operand types of the collected arguments; `none` models the
panic of `Type()` on a nil argument. -/
def argTypes : Args → Option (List VType)
  | [] => some []
  | some v :: rest => (argTypes rest).map (v.type :: ·)
  | none :: _ => none

/-- `evaluator.evaluateOperator`: exact-signature resolution, attaching
the operator node to unknown-operator errors; a successful resolution
returns the invokable's result unchanged. -/
def evaluateOperator (c : Context) (symbol : String) (children : List Node)
    (args : Args) : EvalOut :=
  match argTypes args with
  | none => .panicked
  | some ops =>
    match c.table.operatorNamed symbol ops with
    | .error e =>
      match e with
      | .unknownOperator s o =>
        .ret c (some (.unknownOperator s o (some (.operatorNode symbol children)))) none
      | _ => .ret c (some e.toEvalErr) none
    | .ok inv =>
      match invoke inv c args with
      | (_, .panicked) => .panicked
      | (c', .ok v) => .ret c' none v
      | (c', .err m) => .ret c' (some (.message m)) none

/-- `evaluator.evaluateLet`: at most one initializer; resolve the
declared type; define the binding; a single initializer is assigned
through the type-checked `setValue` path. -/
def evaluateLet (c : Context) (typeName identifier : String) (args : Args) : EvalOut :=
  match args with
  | _ :: _ :: _ =>
    .ret c (some (.message "Assignment with declaration must have at most one value")) none
  | _ =>
    match c.table.typeNamed typeName with
    | .error e => .ret c (some e.toEvalErr) none
    | .ok ty =>
      match c.table.define identifier ty with
      | .error e => .ret c (some e.toEvalErr) none
      | .ok t =>
        let c₁ := { c with table := t }
        match args with
        | [a] =>
          match setValue c₁ identifier a with
          | some (c₂, e) => .ret c₂ e none
          | none => .panicked
        | _ => .ret c₁ none none

/-- `evaluator.evaluateIdentifier`: `Get` from the table, the value being
returned alongside whatever `applyUnknownIdentifierNode` makes of the
error. -/
def evaluateIdentifier (c : Context) (name : String) : EvalOut :=
  match c.table.get name with
  | .ok v => .ret c (applyUnknownIdentifierNode none (.identifierNode name)) v
  | .error e => .ret c (applyUnknownIdentifierNode (some e) (.identifierNode name)) none

/-- `evaluator.evaluateAssignment`: exactly one collected value, assigned
through `setValue`. -/
def evaluateAssignment (c : Context) (identifier : String) (args : Args) : EvalOut :=
  match args with
  | [a] =>
    match setValue c identifier a with
    | some (c₁, e) => .ret c₁ e none
    | none => .panicked
  | _ => .ret c (some (.message "Assignment must have at exactly one value")) none

mutual

/-- `evaluator.evaluate`: `If` is special-cased before anything else
(the `evaluateIf` logic is inlined here: evaluate the condition and
propagate its error; a non-`Boolean` condition value fails; a true
condition runs the body children for effect only, discarding their
errors and values; a false condition skips them — `evaluate` wraps the
resulting error with a nil value).  Containers (and the root) first
evaluate their children left-to-right into the argument list, aborting
at the first child error; then dispatch on the node variant (literals to
values, calls, operators, bindings, groups; statements and root are
structural and yield nil). -/
def evaluate (c : Context) : Node → EvalOut
  | .ifNode condition body =>
    match evaluate c condition with
    | .panicked => .panicked
    | .ret c₁ (some e) _ => .ret c₁ (some e) none
    | .ret c₁ none result =>
      match result with
      | some (.boolean b) =>
        if b then
          match evalBody c₁ body with
          | some c₂ => .ret c₂ none none
          | none => .panicked
        else .ret c₁ none none
      | _ => .ret c₁ (some (.message "If condition must evaluate to boolean")) none
  | .root stmts =>
    match evalArgs c stmts with
    | .ok c₁ _ => .ret c₁ none none
    | .err c₁ e => .ret c₁ (some e) none
    | .panicked => .panicked
  | .statement cs =>
    match evalArgs c cs with
    | .ok c₁ _ => .ret c₁ none none
    | .err c₁ e => .ret c₁ (some e) none
    | .panicked => .panicked
  | .stringLiteral s => .ret c none (some (.string s))
  | .numberLiteral n => .ret c none (some (.number n))
  | .booleanLiteral b => .ret c none (some (.boolean b))
  | .identifierNode name => evaluateIdentifier c name
  | .functionCall identifier cs =>
    match evalArgs c cs with
    | .ok c₁ args => evaluateFunctionCall c₁ identifier args
    | .err c₁ e => .ret c₁ (some e) none
    | .panicked => .panicked
  | .operatorNode symbol cs =>
    match evalArgs c cs with
    | .ok c₁ args => evaluateOperator c₁ symbol cs args
    | .err c₁ e => .ret c₁ (some e) none
    | .panicked => .panicked
  | .letNode typeName identifier cs =>
    match evalArgs c cs with
    | .ok c₁ args => evaluateLet c₁ typeName identifier args
    | .err c₁ e => .ret c₁ (some e) none
    | .panicked => .panicked
  | .assignment identifier cs =>
    match evalArgs c cs with
    | .ok c₁ args => evaluateAssignment c₁ identifier args
    | .err c₁ e => .ret c₁ (some e) none
    | .panicked => .panicked
  | .group cs =>
    match evalArgs c cs with
    | .ok c₁ args =>
      match args with
      | [a] => .ret c₁ none a
      | _ =>
        .ret c₁ (some (.message ("Group should not have more than 1 child, actually has: "
          ++ toString args.length))) none
    | .err c₁ e => .ret c₁ (some e) none
    | .panicked => .panicked

/-- The child-collection loop of `evaluate`: evaluate children in order,
appending each returned value (nil included) to the argument list and
aborting on the first error. -/
def evalArgs (c : Context) : List Node → ArgsOut
  | [] => .ok c []
  | n :: rest =>
    match evaluate c n with
    | .panicked => .panicked
    | .ret c₁ (some e) _ => .err c₁ e
    | .ret c₁ none v =>
      match evalArgs c₁ rest with
      | .ok c₂ args => .ok c₂ (v :: args)
      | out => out

/-- The body loop of `evaluateIf`: each child is evaluated solely for
effect, its error and value both discarded, iteration continuing past
failures. -/
def evalBody (c : Context) : List Node → Option Context
  | [] => some c
  | n :: rest =>
    match evaluate c n with
    | .panicked => none
    | .ret c₁ _ _ => evalBody c₁ rest

end

/-- `Evaluator.Evaluate`: the public entry discards the value and
surfaces only the error (`none` models a propagated panic). -/
def Evaluate (c : Context) (node : Node) : Option (Context × Option EvalErr) :=
  match evaluate c node with
  | .ret c' e _ => some (c', e)
  | .panicked => none

/-! ## Derived definitions used by the statements below -/

/-- A well-formed literal lexeme: a literal kind whose text, when of the
number kind, parses as a 64-bit float. -/
def wellFormedLiteral (l : Lexeme) : Bool :=
  isLiteral l.type && (l.type != .number || (parseFloat64 l.value).isSome)

/-- The AST leaf the corresponding entry hook builds for a literal
lexeme (the number fallback value is irrelevant: it is only reached for
texts a well-formed literal excludes). -/
def mkLiteralNode (l : Lexeme) : Node :=
  match l.type with
  | .quoted => .stringLiteral l.value
  | .number =>
    match parseFloat64 l.value with
    | some v => .numberLiteral v
    | none => .numberLiteral .nan
  | .boolTrue => .booleanLiteral true
  | .boolFalse => .booleanLiteral false
  | _ => .stringLiteral l.value

/-- The last semicolon lexeme of a statement sequence (the fold keeps
the most recent terminator). -/
def lastTerminator (ps : List (Lexeme × Lexeme)) (sl : Lexeme) : Lexeme :=
  ps.foldl (fun _ p => p.2) sl

/-- Flatten a list of (literal, terminator) statement pairs into the
lexeme stream they form. -/
def statementLexemes (ps : List (Lexeme × Lexeme)) : List Lexeme :=
  (ps.map (fun p => [p.1, p.2])).flatten

/-- The statement nodes a statement sequence parses to. -/
def statementNodes (ps : List (Lexeme × Lexeme)) : List Node :=
  ps.map (fun p => .statement [mkLiteralNode p.1])

/-! ## Helper lemmas -/

/-- Indexing just past an appended list hits the appended element. -/
theorem get?_concat_length (S : List Node) (a : Node) :
    (S ++ [a]).get? S.length = some a := by
  induction S with
  | nil => rfl
  | cons x xs ih => simpa using ih

/-- Setting just past an appended list replaces the appended element. -/
theorem set_concat_length (S : List Node) (a b : Node) :
    (S ++ [a]).set S.length b = S ++ [b] := by
  induction S with
  | nil => rfl
  | cons x xs ih => simpa using ih

/-- Feeding a concatenated stream is sequential composition. -/
theorem runLexemes_append (xs ys : List Lexeme) (c : ParserCfg) :
    runLexemes c (xs ++ ys) =
      match runLexemes c xs with
      | .ok c' => runLexemes c' ys
      | out => out := by
  induction xs generalizing c with
  | nil => rfl
  | cons l rest ih =>
    simp only [List.cons_append, runLexemes]
    cases stepLexeme c l with
    | ok c' => exact ih c'
    | err e c' => rfl
    | panicked => rfl

/-- Whitespace lexemes are skipped: a run only depends on the
whitespace-free part of the stream. -/
theorem runLexemes_filter_ws (ls : List Lexeme) (c : ParserCfg) :
    runLexemes c ls = runLexemes c (ls.filter (fun l => l.type != .whitespace)) := by
  induction ls generalizing c with
  | nil => rfl
  | cons l rest ih =>
    by_cases h : l.type = .whitespace
    · have hstep : stepLexeme c l = .ok c := by simp [stepLexeme, h]
      simp [runLexemes, hstep, h, ih c]
    · simp only [runLexemes, List.filter]
      have : (l.type != .whitespace) = true := by simpa using h
      rw [this]
      simp only [runLexemes]
      cases stepLexeme c l with
      | ok c' => exact ih c'
      | err e c' => rfl
      | panicked => rfl

/-- Pushing a leaf while the root frame is the whole stack synthesizes a
fresh statement holding the leaf and leaves the statement frame on top. -/
theorem pushNode_root_leaf (p : ParserCfg) (S : List Node) (node : Node)
    (hroot : p.root = .root S) (hstack : p.nodeStack = [[]])
    (hleaf : node.isContainer = false) :
    pushNode p node =
      some { p with root := .root (S ++ [.statement [node]]),
                    nodeStack := [[S.length], []] } := by
  simp only [pushNode, hroot, hstack, List.head?, Node.getAt]
  simp only [Node.modifyAt, Node.childList, get?_concat_length,
    Node.withChildList, set_concat_length]
  simp only [hleaf]
  simp [Node.isContainer]

/-- From a statement boundary (start state or just-closed statement) a
well-formed literal followed by a terminator appends exactly one
statement wrapping the literal's node and returns to the accepting
state with the root frame alone on the stack. -/
theorem step_literal_statement (S : List Node) (cur : Lexeme) (st : PState)
    (hst : st = .start ∨ st = .tok .semiColon)
    (l sl : Lexeme) (hl : wellFormedLiteral l = true) (hsl : sl.type = .semiColon) :
    runLexemes ⟨st, cur, .root S, [[]]⟩ [l, sl]
      = .ok ⟨.tok .semiColon, sl, .root (S ++ [.statement [mkLiteralNode l]]), [[]]⟩ := by
  have hlit : isLiteral l.type = true := by
    simp [wellFormedLiteral] at hl; exact hl.1
  cases hk : l.type with
  | quoted =>
    have hpush := pushNode_root_leaf ⟨.tok .quoted, l, .root S, [[]]⟩ S
      (.stringLiteral l.value) rfl rfl rfl
    rcases hst with h | h <;> subst h <;>
      simp [runLexemes, stepLexeme, transition, hk, runHook, hpush, hsl,
        parserEdges, isLiteral, closeNode, mkLiteralNode]
  | number =>
    have hv : (parseFloat64 l.value).isSome := by
      simp [wellFormedLiteral, hk] at hl; exact hl.2
    obtain ⟨v, hv⟩ := Option.isSome_iff_exists.mp hv
    have hpush := pushNode_root_leaf ⟨.tok .number, l, .root S, [[]]⟩ S
      (.numberLiteral v) rfl rfl rfl
    rcases hst with h | h <;> subst h <;>
      simp [runLexemes, stepLexeme, transition, hk, runHook, hv, hpush, hsl,
        parserEdges, isLiteral, closeNode, mkLiteralNode]
  | boolTrue =>
    have hpush := pushNode_root_leaf ⟨.tok .boolTrue, l, .root S, [[]]⟩ S
      (.booleanLiteral true) rfl rfl rfl
    rcases hst with h | h <;> subst h <;>
      simp [runLexemes, stepLexeme, transition, hk, runHook, hpush, hsl,
        parserEdges, isLiteral, closeNode, mkLiteralNode]
  | boolFalse =>
    have hpush := pushNode_root_leaf ⟨.tok .boolFalse, l, .root S, [[]]⟩ S
      (.booleanLiteral false) rfl rfl rfl
    have hbeq : (LexemeType.boolFalse == LexemeType.boolTrue) = false := by decide
    rcases hst with h | h <;> subst h <;>
      simp [runLexemes, stepLexeme, transition, hk, runHook, hpush, hsl, hbeq,
        parserEdges, isLiteral, closeNode, mkLiteralNode]
  | identifier => rw [hk] at hlit; simp [isLiteral] at hlit
  | parenOpen => rw [hk] at hlit; simp [isLiteral] at hlit
  | parenClose => rw [hk] at hlit; simp [isLiteral] at hlit
  | semiColon => rw [hk] at hlit; simp [isLiteral] at hlit
  | whitespace => rw [hk] at hlit; simp [isLiteral] at hlit

/-- Iterating `step_literal_statement` over a whole statement sequence
from the accepting state. -/
theorem runLexemes_statements (ps : List (Lexeme × Lexeme)) :
    ∀ (S : List Node) (cur : Lexeme),
    (∀ p ∈ ps, wellFormedLiteral p.1 = true ∧ p.2.type = .semiColon) →
    runLexemes ⟨.tok .semiColon, cur, .root S, [[]]⟩ (statementLexemes ps)
      = .ok ⟨.tok .semiColon, lastTerminator ps cur, .root (S ++ statementNodes ps), [[]]⟩ := by
  induction ps with
  | nil => intro S cur _; simp [statementLexemes, statementNodes, lastTerminator, runLexemes]
  | cons p rest ih =>
    intro S cur hwf
    have hp := hwf p (by simp)
    have hflat : statementLexemes (p :: rest) = [p.1, p.2] ++ statementLexemes rest := by
      simp [statementLexemes]
    rw [hflat, runLexemes_append,
      step_literal_statement S cur _ (Or.inr rfl) p.1 p.2 hp.1 hp.2]
    have ihr := ih (S ++ [.statement [mkLiteralNode p.1]]) p.2
      (fun q hq => hwf q (by simp [hq]))
    simp only [ihr]
    simp [statementNodes, lastTerminator]

/-! ## Verified claims -/

/-- C1: the propagation policy promises every evaluation error surfaces,
but body children of a true-conditioned `If` are evaluated with their
errors discarded: an unknown-identifier failure inside the body leaves
the public `Evaluate` reporting success, while evaluating the same body
child directly errors.  This demonstrates the code-level divergence on
the failing input. -/
theorem c1_if_body_errors_swallowed :
    Evaluate newContext (.ifNode (.booleanLiteral true) [.functionCall "missing" []])
      = some (newContext, none)
    ∧ evaluate newContext (.functionCall "missing" [])
      = .ret newContext (some (.unknownIdentifier "missing" none)) none :=
  ⟨rfl, rfl⟩

/-- C2 (counterexample): after a terminated first statement the
automaton rejects an identifier — the claimed `semicolon → identifier`
transition does not exist, so a second statement beginning with a
function call fails with the unexpected-token condition. -/
theorem c2_identifier_after_semicolon_fails :
    Parse [⟨.boolTrue, "true", 1⟩, ⟨.semiColon, ";", 2⟩, ⟨.identifier, "print", 3⟩]
      = .err (.unexpectedInput .identifier) (.root [.statement [.booleanLiteral true]]) :=
  rfl

/-- C2 (amended): from the semicolon state the automaton has a
transition exactly for every literal token kind and for nothing else —
in particular not for the identifier kind. -/
theorem c2_semicolon_accepts_literals_only :
    ∀ k, parserEdges (.tok .semiColon) k = isLiteral k := by
  intro k; cases k <;> rfl

/-- C3 (counterexample): invoking the arithmetic natives on an argument
list with fewer than two elements does not return an error — indexing
the missing operand aborts (the Go out-of-range panic), even when a
first numeric operand is present. -/
theorem c3_short_argument_list_aborts :
    AddNumbersInvoke [] = .panicked
    ∧ SubtractNumbersInvoke [] = .panicked
    ∧ AddNumbersInvoke [some (.number (.finite ⟨1, 1⟩))] = .panicked :=
  ⟨rfl, rfl, rfl⟩

/-- C3 (amended): on any argument list with at least two elements the
arithmetic natives never abort: each either computes a numeric result
or returns its operand-type-violation error. -/
theorem c3_two_arguments_return_result_or_error (args : Args)
    (h : 2 ≤ args.length) :
    ((∃ v, AddNumbersInvoke args = .ok (some (.number v)))
      ∨ AddNumbersInvoke args = .err "Invalid operands. Number addition requires two numbers")
    ∧ ((∃ v, SubtractNumbersInvoke args = .ok (some (.number v)))
      ∨ SubtractNumbersInvoke args = .err "Invalid operands. Subtraction requires two numbers") := by
  match args, h with
  | a :: b :: rest, _ =>
    refine ⟨?_, ?_⟩ <;>
    · rcases a with _ | v
      · exact Or.inr rfl
      · rcases v with s | n | bb | ii
        · exact Or.inr rfl
        · rcases b with _ | w
          · exact Or.inr rfl
          · rcases w with s' | n' | bb' | ii'
            · exact Or.inr rfl
            · exact Or.inl ⟨_, rfl⟩
            · exact Or.inr rfl
            · exact Or.inr rfl
        · exact Or.inr rfl
        · exact Or.inr rfl

/-- C3 (witness): two numeric arguments. -/
theorem c3_two_arguments_witness :
    ((∃ v, AddNumbersInvoke [some (.number (.finite ⟨1, 1⟩)), some (.number (.finite ⟨2, 1⟩))]
        = .ok (some (.number v)))
      ∨ AddNumbersInvoke [some (.number (.finite ⟨1, 1⟩)), some (.number (.finite ⟨2, 1⟩))]
        = .err "Invalid operands. Number addition requires two numbers")
    ∧ ((∃ v, SubtractNumbersInvoke [some (.number (.finite ⟨1, 1⟩)), some (.number (.finite ⟨2, 1⟩))]
        = .ok (some (.number v)))
      ∨ SubtractNumbersInvoke [some (.number (.finite ⟨1, 1⟩)), some (.number (.finite ⟨2, 1⟩))]
        = .err "Invalid operands. Subtraction requires two numbers") :=
  c3_two_arguments_return_result_or_error
    [some (.number (.finite ⟨1, 1⟩)), some (.number (.finite ⟨2, 1⟩))] (by decide)

/-- C4: when the children evaluate cleanly and the callee name resolves
among the table's functions, the invokable is invoked but both the error
and the value it returns are discarded: the call evaluates to nil error
and the absence value (only the invocation's context effects survive). -/
theorem c4_function_call_discards_invoke_outcome (c : Context) (name : String)
    (cs : List Node) (c₁ : Context) (args : Args) (inv : Invokable)
    (hargs : evalArgs c cs = .ok c₁ args)
    (hres : c₁.table.invokableNamed name = .ok inv)
    (hret : (invoke inv c₁ args).2 ≠ .panicked) :
    evaluate c (.functionCall name cs) = .ret (invoke inv c₁ args).1 none none := by
  simp only [evaluate, hargs, evaluateFunctionCall, hres]

/-- C4 (witness): a `println` call with no arguments — the invocation
returns an arity error, which the caller discards. -/
theorem c4_function_call_witness :
    evaluate newContext (.functionCall "println" [])
      = .ret (invoke .println newContext []).1 none none :=
  c4_function_call_discards_invoke_outcome newContext "println" [] newContext []
    .println rfl rfl (by decide)

/-- C5: whenever the automaton accepts a number token (any statement
boundary reached by a successful prefix run), a number lexeme whose text
does not parse as a 64-bit float makes `Parse` fail with the
invalid-number condition carrying that lexeme — by construction a
distinct condition from unexpected-token. -/
theorem c5_malformed_number_fails_invalid_number (pre : List Lexeme) (l : Lexeme)
    (rest : List Lexeme) (c : ParserCfg)
    (hpre : runLexemes initialCfg pre = .ok c)
    (hedge : parserEdges c.dfaState .number = true)
    (hty : l.type = .number)
    (hval : parseFloat64 l.value = none) :
    Parse (pre ++ l :: rest) = .err (.invalidNumber l) c.root := by
  have hstep : stepLexeme c l = .err (.invalidNumber l) { c with current := l } := by
    simp [stepLexeme, hty, transition, hedge, runHook, hval]
  simp [Parse, runLexemes_append, hpre, runLexemes, hstep]

/-- C5 (witness): the malformed number of the regression test, fed as
the first lexeme. -/
theorem c5_malformed_number_witness :
    Parse [⟨.number, "1.3.2.2.422", 1⟩]
      = .err (.invalidNumber ⟨.number, "1.3.2.2.422", 1⟩) (.root []) :=
  c5_malformed_number_fails_invalid_number [] ⟨.number, "1.3.2.2.422", 1⟩ []
    initialCfg rfl rfl rfl (by decide)

/-- C6: when the whole stream is consumed without failure but the
automaton ends in a non-accepting state, `Parse` fails with the distinct
unterminated-statement condition (not unexpected-token). -/
theorem c6_nonaccepting_end_fails_unterminated (ls : List Lexeme) (c : ParserCfg)
    (hrun : runLexemes initialCfg ls = .ok c)
    (hacc : c.dfaState ≠ .tok .semiColon) :
    Parse ls = .err .unterminatedStatement c.root := by
  simp [Parse, hrun, hacc]

/-- C6 (witness): a lone `true` with no terminator. -/
theorem c6_unterminated_witness :
    Parse [⟨.boolTrue, "true", 1⟩]
      = .err .unterminatedStatement (.root [.statement [.booleanLiteral true]]) :=
  c6_nonaccepting_end_fails_unterminated [⟨.boolTrue, "true", 1⟩]
    ⟨.tok .boolTrue, ⟨.boolTrue, "true", 1⟩, .root [.statement [.booleanLiteral true]], [[0], []]⟩
    rfl (by decide)

/-- C7: evaluating an `If` first evaluates only the condition: when the
condition's value is not a `Boolean` the evaluation fails with the
condition-must-be-boolean error without touching the body, and when the
condition is `Boolean false` the body children are never evaluated (the
context is exactly the one the condition evaluation produced). -/
theorem c7_if_condition_gate (c : Context) (condition : Node) (body : List Node)
    (c₁ : Context) (r : Option Value)
    (hcond : evaluate c condition = .ret c₁ none r) :
    ((∀ b, r ≠ some (.boolean b)) →
      evaluate c (.ifNode condition body)
        = .ret c₁ (some (.message "If condition must evaluate to boolean")) none)
    ∧ (r = some (.boolean false) →
      evaluate c (.ifNode condition body) = .ret c₁ none none) := by
  constructor
  · intro hnb
    simp only [evaluate, hcond]
  · intro hb
    subst hb
    simp [evaluate, hcond]

/-- C7 (witness): a false condition guarding a `println` body — no
output is produced and no error is reported. -/
theorem c7_if_condition_witness :
    evaluate newContext (.ifNode (.booleanLiteral false)
        [.functionCall "println" [.stringLiteral "x"]])
      = .ret newContext none none :=
  (c7_if_condition_gate newContext (.booleanLiteral false)
    [.functionCall "println" [.stringLiteral "x"]] newContext
    (some (.boolean false)) rfl).2 rfl

/-- C8: the node-stack invariant fails on the code: the grammar admits a
closing parenthesis directly after a top-level quoted literal, whose
close hook pops the `Statement` frame and the following terminator then
pops the `Root` frame — the run succeeds with an empty node stack.  A
further literal statement makes `push` index the empty stack, the
modelled Go out-of-range panic. -/
theorem c8_stack_underflow_demo :
    runLexemes initialCfg [⟨.quoted, "s", 1⟩, ⟨.parenClose, ")", 2⟩, ⟨.semiColon, ";", 3⟩]
      = .ok { dfaState := .tok .semiColon, current := ⟨.semiColon, ";", 3⟩,
              root := .root [.statement [.stringLiteral "s"]], nodeStack := [] }
    ∧ Parse [⟨.quoted, "s", 1⟩, ⟨.parenClose, ")", 2⟩, ⟨.semiColon, ";", 3⟩,
             ⟨.number, "4", 4⟩, ⟨.semiColon, ";", 5⟩] = .panic :=
  ⟨rfl, rfl⟩

/-- C9: a non-empty sequence of well-formed literal statements — each a
literal lexeme followed by a semicolon, with whitespace lexemes freely
interleaved — parses to a root with exactly one statement per literal,
each wrapping exactly the node built from that literal's kind and text. -/
theorem c9_literal_statement_sequence (ps : List (Lexeme × Lexeme)) (ls : List Lexeme)
    (hne : ps ≠ [])
    (hwf : ∀ p ∈ ps, wellFormedLiteral p.1 = true ∧ p.2.type = .semiColon)
    (hls : ls.filter (fun l => l.type != .whitespace) = statementLexemes ps) :
    Parse ls = .ok (.root (statementNodes ps)) := by
  match ps, hne with
  | p :: rest, _ =>
    have hp := hwf p (by simp)
    have hflat : statementLexemes (p :: rest) = [p.1, p.2] ++ statementLexemes rest := by
      simp [statementLexemes]
    have hrun : runLexemes initialCfg ls
        = .ok ⟨.tok .semiColon, lastTerminator rest p.2,
               .root ([.statement [mkLiteralNode p.1]] ++ statementNodes rest), [[]]⟩ := by
      rw [runLexemes_filter_ws ls initialCfg, hls, hflat, runLexemes_append]
      rw [show initialCfg = ⟨.start, initialCfg.current, .root [], [[]]⟩ from rfl]
      rw [step_literal_statement [] initialCfg.current _ (Or.inl rfl) p.1 p.2 hp.1 hp.2]
      have := runLexemes_statements rest ([] ++ [.statement [mkLiteralNode p.1]])
        p.2 (fun q hq => hwf q (by simp [hq]))
      simpa using this
    simp [Parse, hrun, statementNodes]

/-- C9 (witness): number and boolean literal statements with whitespace
interleaved. -/
theorem c9_literal_statement_witness :
    Parse [⟨.whitespace, " ", 0⟩, ⟨.number, "1.34", 1⟩, ⟨.semiColon, ";", 2⟩,
           ⟨.whitespace, " ", 3⟩, ⟨.boolTrue, "true", 4⟩, ⟨.whitespace, "  ", 5⟩,
           ⟨.semiColon, ";", 6⟩]
      = .ok (.root (statementNodes
          [(⟨.number, "1.34", 1⟩, ⟨.semiColon, ";", 2⟩),
           (⟨.boolTrue, "true", 4⟩, ⟨.semiColon, ";", 6⟩)])) :=
  c9_literal_statement_sequence
    [(⟨.number, "1.34", 1⟩, ⟨.semiColon, ";", 2⟩),
     (⟨.boolTrue, "true", 4⟩, ⟨.semiColon, ";", 6⟩)]
    _ (by decide) (by decide) (by decide)

/-- C10: the hello-world lexeme sequence parses to a root holding one
statement whose sole child is the `print` call with the string literal
as its sole child. -/
theorem c10_hello_world_parse :
    Parse [⟨.identifier, "print", 1⟩, ⟨.parenOpen, "(", 2⟩, ⟨.quoted, "Hello, world!", 3⟩,
           ⟨.parenClose, ")", 4⟩, ⟨.semiColon, ";", 5⟩]
      = .ok (.root [.statement [.functionCall "print" [.stringLiteral "Hello, world!"]]]) :=
  rfl
